import Mathlib

/-!
# Verification of the deals-bot ingestion-to-digest pipeline

Shallow embedding, in Lean 4, of the parts of the `dealintel` code base that
the specification claims talk about:

* `promos/normalize.py`  (URL / headline normalization, promo base keys)
* `web/budget.py`        (per-store request budget)
* `web/fetch.py`         (HTTP fetch result handling, body truncation)
* `web/policy.py`        (robots policy gate)
* `web/adapters/*.py`    (category and RSS adapter discover flows)
* `web/tiered.py`        (per-store tier-ordered adapter routing)
* `promos/merge.py`      (change detection against an existing promo)
* `digest/select.py`     (NEW / UPDATED / ACTIVE digest selection)
* `jobs/daily.py` + `outbound/notifications.py` (daily run orchestration)

Python strings are modelled as Lean `String` restricted to the ASCII
behaviour of `str.lower` / `str.upper` / `str.strip` (the code base only
manipulates ASCII configuration data, promo codes and URLs).  Machine-level
effects (network, database, clock) are passed in as explicit arguments, so
every definition is executable.
-/

namespace DealsBot

/-! ## Python string primitives (ASCII scope) -/

/-- The characters Python `str.strip()` removes: `" \t\n\r\x0b\x0c"`. -/
def isPySpace (c : Char) : Bool :=
  c = ' ' || c = '\t' || c = '\n' || c = '\r' || c = '\x0b' || c = '\x0c'

/-- Strip characters satisfying `p` from both ends of a list. -/
def stripList (p : Char → Bool) (l : List Char) : List Char :=
  ((l.dropWhile p).reverse.dropWhile p).reverse

/-- Python `str.lower()` restricted to ASCII. -/
def pyLower (s : String) : String :=
  ⟨s.data.map Char.toLower⟩

/-- Python `str.upper()` restricted to ASCII. -/
def pyUpper (s : String) : String :=
  ⟨s.data.map Char.toUpper⟩

/-- Python truthiness of an optional string: `None` and `""` are falsy. -/
def optTruthy : Option String → Bool
  | none => false
  | some s => !s.isEmpty

/-- Python word characters for the `\w` regex class (ASCII scope):
letters, digits and underscore. -/
def isPyWord (c : Char) : Bool :=
  c.isAlphanum || c = '_'

/-- One pass of `re.sub(r"\s+", " ", ·)`: every maximal run of whitespace
characters is replaced by a single space.  The boolean records whether the
previous character belonged to a whitespace run. -/
def collapseWsAux : List Char → Bool → List Char
  | [], _ => []
  | c :: rest, prevWs =>
    if isPySpace c then
      if prevWs then collapseWsAux rest true
      else ' ' :: collapseWsAux rest true
    else c :: collapseWsAux rest false

/-- `re.sub(r"\s+", " ", s)`. -/
def collapseWs (l : List Char) : List Char :=
  collapseWsAux l false

/-! ## Character-level lemmas -/

theorem char_toNat_ofNat_of_lt {n : Nat} (h : n < 55296) :
    (Char.ofNat n).toNat = n := by
  have hv : n.isValidChar := Or.inl h
  simp [Char.ofNat, dif_pos hv, Char.ofNatAux, Char.toNat, UInt32.toNat]

theorem char_toLower_eq (c : Char) :
    c.toLower = if c.toNat ≥ 65 ∧ c.toNat ≤ 90 then Char.ofNat (c.toNat + 32) else c :=
  rfl

theorem char_toUpper_eq (c : Char) :
    c.toUpper = if c.toNat ≥ 97 ∧ c.toNat ≤ 122 then Char.ofNat (c.toNat - 32) else c :=
  rfl

def hexDigitChar (n : Nat) : Char :=
  if n < 10 then Char.ofNat (48 + n) else Char.ofNat (87 + n)

structure PyUrlParts where
  scheme : String
  netloc : String
  path : String
  params : String
  query : String
  fragment : String
deriving DecidableEq, Repr

/-- `urllib.parse.scheme_chars`. -/
def isSchemeChar (c : Char) : Bool :=
  c.isAlphanum || c = '+' || c = '-' || c = '.'

/-- Split off `scheme:` when the prefix before the first colon is a valid
scheme starting with an ASCII letter. -/
def pySchemeSplit (l : List Char) : List Char × List Char :=
  match l.findIdx? (· = ':') with
  | some i =>
    if 0 < i ∧ l.head?.elim false Char.isAlpha ∧ (l.take i).all isSchemeChar then
      ((l.take i).map Char.toLower, l.drop (i + 1))
    else ([], l)
  | none => ([], l)

/-- `url.split(sep, 1)` when `sep` occurs, else the whole list. -/
def splitOnFirst (sep : Char) (l : List Char) : List Char × List Char :=
  match l.findIdx? (· = sep) with
  | some i => (l.take i, l.drop (i + 1))
  | none => (l, [])

/-- Python `s.split(sep)` on character lists (every occurrence, no limit). -/
def splitOnChar (sep : Char) (l : List Char) : List (List Char) :=
  l.foldr
    (fun c acc =>
      match acc with
      | [] => [[c]]
      | g :: gs => if c = sep then [] :: g :: gs else (c :: g) :: gs)
    [[]]

/-- `netloc.partition('[')[2].partition(']')[0]`: the text after the first
`'['` and before the next `']'`. -/
def bracketedHost (netloc : List Char) : List Char :=
  ((netloc.dropWhile (· ≠ '[')).drop 1).takeWhile (· ≠ ']')

/-- `ipaddress.IPv4Address._parse_octet` (CPython 3.11): ASCII decimal
digits only, at most 3 of them, no leading zero, value at most 255. -/
def parseIPv4Octet (l : List Char) : Option Nat :=
  if l.isEmpty then none
  else if !l.all Char.isDigit then none
  else if 3 < l.length then none
  else if l ≠ ['0'] ∧ l.head? = some '0' then none
  else
    let v := l.foldl (fun a c => a * 10 + (c.toNat - 48)) 0
    if 255 < v then none else some v

/-- `ipaddress.IPv4Address._ip_int_from_string`: exactly four octets
joined by `'.'` (the constructor's `'/'` rejection is subsumed: `'/'` is
not a decimal digit). -/
def parseIPv4 (l : List Char) : Option Nat :=
  let octets := splitOnChar '.' l
  if octets.length ≠ 4 then none
  else
    match octets.mapM parseIPv4Octet with
    | some vs => some (vs.foldl (fun a v => a * 256 + v) 0)
    | none => none

/-- Membership in `ipaddress._BaseV6._HEX_DIGITS`. -/
def isHexDigitPy (c : Char) : Bool :=
  c.isDigit || ('a' ≤ c && c ≤ 'f') || ('A' ≤ c && c ≤ 'F')

/-- Value of an ASCII hex digit. -/
def hexVal (c : Char) : Nat :=
  if c.isDigit then c.toNat - 48
  else if 'a' ≤ c && c ≤ 'f' then c.toNat - 87
  else c.toNat - 55

/-- `ipaddress.IPv6Address._parse_hextet`: hex digits only, at most 4 of
them, at least one (`int("", 16)` raises on the empty string). -/
def parseHextet (l : List Char) : Option Nat :=
  if !l.all isHexDigitPy then none
  else if 4 < l.length then none
  else if l.isEmpty then none
  else some (l.foldl (fun a c => a * 16 + hexVal c) 0)

/-- `"%x" % n`: lowercase hex rendering without leading zeros (structural
fuel; `n` itself is enough fuel for all of `n`'s digits). -/
def hexRenderAux : Nat → Nat → List Char
  | 0, _ => []
  | _ + 1, 0 => []
  | fuel + 1, n => hexRenderAux fuel (n / 16) ++ [hexDigitChar (n % 16)]

/-- `"%x" % n`. -/
def hexRender (n : Nat) : List Char :=
  if n = 0 then ['0'] else hexRenderAux n n

/-- `ipaddress.IPv6Address._ip_int_from_string` on a scope-free address:
at least 3 colon-separated parts, an optional IPv4-style last part
(converted to two hextets), at most 9 parts, at most one empty interior
part (the `'::'` run), empty endpoint parts only as part of a `'::'`,
and at least one skipped group when a `'::'` is present. -/
def parseIPv6NoScope (l : List Char) : Option Nat :=
  let parts0 := splitOnChar ':' l
  if parts0.length < 3 then none
  else
    let parts1 :=
      match parts0.getLast? with
      | some last =>
        if last.contains '.' then
          match parseIPv4 last with
          | some v4 =>
            some (parts0.dropLast ++
              [hexRender (v4 / 65536 % 65536), hexRender (v4 % 65536)])
          | none => none
        else some parts0
      | none => some parts0
    match parts1 with
    | none => none
    | some parts =>
      if 9 < parts.length then none
      else
        let n := parts.length
        let interior := (parts.drop 1).take (n - 2)
        if 1 < interior.countP (fun p => p.isEmpty) then none
        else
          match interior.findIdx? (fun p => p.isEmpty) with
          | some j =>
            let skipIdx := j + 1
            let headEmpty := (parts.headD []).isEmpty
            let lastEmpty := (parts.getLastD []).isEmpty
            let partsHi := if headEmpty then skipIdx - 1 else skipIdx
            if headEmpty ∧ partsHi ≠ 0 then none
            else
              let partsLo0 := n - skipIdx - 1
              let partsLo := if lastEmpty then partsLo0 - 1 else partsLo0
              if lastEmpty ∧ partsLo ≠ 0 then none
              else if 7 < partsHi + partsLo then none
              else
                let skipped := 8 - (partsHi + partsLo)
                match (parts.take partsHi).mapM parseHextet,
                      (parts.drop (n - partsLo)).mapM parseHextet with
                | some his, some los =>
                  some ((his.foldl (fun a v => a * 65536 + v) 0) *
                      65536 ^ (skipped + partsLo) +
                    los.foldl (fun a v => a * 65536 + v) 0)
                | _, _ => none
          | none =>
            if n ≠ 8 then none
            else if (parts.headD []).isEmpty then none
            else if (parts.getLastD []).isEmpty then none
            else
              match parts.mapM parseHextet with
              | some vs => some (vs.foldl (fun a v => a * 65536 + v) 0)
              | none => none

/-- `ipaddress.IPv6Address` built from a string: reject `'/'`, split an
optional `'%scope'` suffix (which must be nonempty and contain no second
`'%'`), then parse the address part. -/
def parseIPv6 (l : List Char) : Option Nat :=
  if l.contains '/' then none
  else
    match l.findIdx? (· = '%') with
    | none => parseIPv6NoScope l
    | some i =>
      let scope := l.drop (i + 1)
      if scope.isEmpty ∨ scope.contains '%' then none
      else parseIPv6NoScope (l.take i)

/-- The regex `\Av[a-fA-F0-9]+\..+\Z` of `_check_bracketed_host` (the
IPvFuture shape; `.` does not match a newline). -/
def ipvFutureOk (l : List Char) : Bool :=
  match l with
  | 'v' :: rest =>
    let hs := rest.takeWhile isHexDigitPy
    match rest.drop hs.length with
    | '.' :: tail => !hs.isEmpty && !tail.isEmpty && tail.all (· ≠ '\n')
    | _ => false
  | _ => false

/-- `urllib.parse._check_bracketed_host`: `true` when it returns, `false`
when it raises.  A host starting with `'v'` must match the IPvFuture
regex; otherwise `ipaddress.ip_address` must succeed (IPv4 is tried
first, and an IPv4 parse raises `"An IPv4 address cannot be in
brackets"`), so the host must parse as an IPv6 address. -/
def checkBracketedHost (l : List Char) : Bool :=
  if l.head? = some 'v' then ipvFutureOk l
  else
    match parseIPv4 l with
    | some _ => false
    | none =>
      match parseIPv6 l with
      | some _ => true
      | none => false

/-- `urllib.parse.urlsplit` (with `allow_fragments=True`), without the
`params` handling that `urlparse` adds on top.  `.error` marks the
inputs on which the stdlib raises `ValueError`. -/
def pyUrlsplit (url : String) : Except String PyUrlParts :=
  let l := (url.data.dropWhile fun c => c.toNat ≤ 32).filter
    fun c => !(c = '\t' || c = '\r' || c = '\n')
  let sl := pySchemeSplit l
  let scheme := sl.1
  let l1 := sl.2
  if l1.take 2 = ['/', '/'] then
    let netloc := (l1.drop 2).takeWhile fun c => !(c = '/' || c = '?' || c = '#')
    let rest := (l1.drop 2).dropWhile fun c => !(c = '/' || c = '?' || c = '#')
    if (netloc.contains '[' && !netloc.contains ']') ||
        (netloc.contains ']' && !netloc.contains '[') then
      .error "Invalid IPv6 URL"
    else if netloc.contains '[' && netloc.contains ']' &&
        !checkBracketedHost (bracketedHost netloc) then
      .error "bracketed host rejected"
    else
      let fr := splitOnFirst '#' rest
      let qu := splitOnFirst '?' fr.1
      .ok ⟨⟨scheme⟩, ⟨netloc⟩, ⟨qu.1⟩, "", ⟨qu.2⟩, ⟨fr.2⟩⟩
  else
    let fr := splitOnFirst '#' l1
    let qu := splitOnFirst '?' fr.1
    .ok ⟨⟨scheme⟩, "", ⟨qu.1⟩, "", ⟨qu.2⟩, ⟨fr.2⟩⟩

/-- Index of the last occurrence of `c`, or 0 when absent (mirrors how
`_splitparams` uses `str.rfind`, which is only consulted under a
`'/' in url` guard). -/
def lastIdxOf (c : Char) (l : List Char) : Nat :=
  match l.reverse.findIdx? (· = c) with
  | some r => l.length - 1 - r
  | none => 0

/-- `urllib.parse._splitparams`: split `;params` off the last path
segment. -/
def pySplitParams (l : List Char) : List Char × List Char :=
  let start := if l.contains '/' then lastIdxOf '/' l else 0
  match (l.drop start).findIdx? (· = ';') with
  | some k => (l.take (start + k), l.drop (start + k + 1))
  | none => (l, [])

/-- `urllib.parse.urlparse`: `urlsplit` plus `params` splitting
(propagating `urlsplit`'s `ValueError`). -/
def pyUrlparse (url : String) : Except String PyUrlParts :=
  match pyUrlsplit url with
  | .error e => .error e
  | .ok s =>
    if s.path.data.contains ';' then
      let pp := pySplitParams s.path.data
      .ok { s with path := ⟨pp.1⟩, params := ⟨pp.2⟩ }
    else .ok s

/-! ## `promos/normalize.py` -/

/--
`normalize_headline` from `promos/normalize.py`:

```python
if not headline: return ""
normalized = re.sub(r"\s+", " ", headline.lower().strip())
normalized = re.sub(r"[^\w\s]", "", normalized)
return normalized
```
-/
def normalize_headline (headline : String) : String :=
  if headline.isEmpty then ""
  else
    let lowered := stripList isPySpace (headline.data.map Char.toLower)
    ⟨(collapseWs lowered).filter fun c => isPyWord c || isPySpace c⟩

structure RequestBudget where
  maxRequests : Option Nat := none
  maxBytes : Option Nat := none
  maxDurationSeconds : Option ℚ := none
  startedAt : ℚ := 0
  requestsUsed : Nat := 0
  bytesUsed : Nat := 0
deriving DecidableEq

/--
```python
def can_request(self) -> bool:
    if self.max_requests is not None and self.requests_used >= self.max_requests:
        return False
    if self.max_duration_seconds is not None:
        if time.monotonic() - self.started_at >= self.max_duration_seconds:
            return False
    return True
```
-/
def RequestBudget.can_request (b : RequestBudget) (now : ℚ) : Bool :=
  if (match b.maxRequests with
      | some m => decide (b.requestsUsed ≥ m)
      | none => false) then false
  else if (match b.maxDurationSeconds with
      | some d => decide (now - b.startedAt ≥ d)
      | none => false) then false
  else true

/--
```python
def start_request(self) -> bool:
    if not self.can_request():
        return False
    self.requests_used += 1
    return True
```
-/
def RequestBudget.start_request (b : RequestBudget) (now : ℚ) : Bool × RequestBudget :=
  if b.can_request now then (true, { b with requestsUsed := b.requestsUsed + 1 })
  else (false, b)

/--
```python
def add_bytes(self, byte_count: int) -> None:
    if byte_count <= 0:
        return
    self.bytes_used += byte_count
```
-/
def RequestBudget.add_bytes (b : RequestBudget) (byteCount : Int) : RequestBudget :=
  if byteCount ≤ 0 then b else { b with bytesUsed := b.bytesUsed + byteCount.toNat }

/-- A sequence of `start_request` calls at the given monotonic times. -/
def RequestBudget.runStartRequests (b : RequestBudget) (times : List ℚ) : RequestBudget :=
  times.foldl (fun b t => (b.start_request t).2) b

/-! ## `web/fetch.py`

The HTTP world is a function from the request headers the client sends to
the behaviour of the server (an `httpx.RequestError`, or a response); the
body processing on the client side is translated line by line. -/

def USER_AGENT : String :=
  "DealIntelBot/0.1 (+https://github.com/user/deals-bot; single-user MVP)"

def MAX_CONTENT_LENGTH : Nat := 5 * 1024 * 1024

structure FetchResultPy where
  finalUrl : String
  statusCode : Nat
  text : Option String
  etag : Option String := none
  lastModified : Option String := none
  error : Option String := none
  elapsedMs : Option Int := none
  truncated : Bool := false
deriving DecidableEq, Repr

structure HttpResponse where
  finalUrl : String
  statusCode : Nat
  headerEtag : Option String := none
  headerLastModified : Option String := none
  text : String := ""
  elapsedMs : Int := 0
deriving DecidableEq, Repr

/-- What the server does for one request. -/
inductive ServerBehavior where
  | raises (msg : String)
  | responds (resp : HttpResponse)

/-- Outcome of `fetch_url` as seen by its caller: a returned `FetchResult`,
or an exception escaping through the `tenacity` retry wrapper. -/
inductive FetchOutcome where
  | result (r : FetchResultPy)
  | raised (msg : String)
deriving DecidableEq, Repr

def isRetryableHttpStatus (s : Nat) : Bool :=
  s = 408 || s = 425 || s = 429 || s = 500 || s = 502 || s = 503 || s = 504

/-- The headers `fetch_url` sends: the fixed user agent, plus the
conditional validators when provided (`if etag:` / `if last_modified:`). -/
def fetchHeaders (etag lastModified : Option String) : List (String × String) :=
  [("User-Agent", USER_AGENT)]
    ++ (if optTruthy etag then [("If-None-Match", etag.getD "")] else [])
    ++ (if optTruthy lastModified then [("If-Modified-Since", lastModified.getD "")] else [])

/-- One attempt of the `fetch_url` body.  `none` in the second component
means a retryable `HTTPStatusError` escaped (to be retried by `tenacity`);
network errors and non-retryable statuses are caught inside and become
`FetchResult` values, exactly as in the source. -/
def fetchAttempt (server : List (String × String) → ServerBehavior) (url : String)
    (etag lastModified : Option String) (maxContentLength : Option Nat) :
    Option FetchResultPy :=
  let headers := fetchHeaders etag lastModified
  match server headers with
  | .raises msg =>
    some ⟨url, 0, none, none, none, some msg, none, false⟩
  | .responds resp =>
    if resp.statusCode = 304 then
      some ⟨resp.finalUrl, 304, none, resp.headerEtag, resp.headerLastModified,
        none, some resp.elapsedMs, false⟩
    else if resp.statusCode ≥ 400 then
      if isRetryableHttpStatus resp.statusCode then none
      else
        some ⟨resp.finalUrl, resp.statusCode, none, none, none,
          some ("HTTP " ++ toString resp.statusCode), none, false⟩
    else
      let content := resp.text
      let limit := maxContentLength.getD MAX_CONTENT_LENGTH
      let tr := decide (limit ≠ 0) && decide (content.length > limit)
      let text := if tr then content.take limit ++ "\n\n[TRUNCATED]" else content
      some ⟨resp.finalUrl, resp.statusCode, some text, resp.headerEtag,
        resp.headerLastModified, none, some resp.elapsedMs, tr⟩

/-- `fetch_url` under `@retry(stop=stop_after_attempt(3), ..., reraise=True)`
in a deterministic world: a retryable status on all three attempts re-raises
the `HTTPStatusError` to the caller. -/
def fetch_url (server : List (String × String) → ServerBehavior) (url : String)
    (etag lastModified : Option String) (maxContentLength : Option Nat) :
    FetchOutcome :=
  match fetchAttempt server url etag lastModified maxContentLength with
  | some r => .result r
  | none =>
    match fetchAttempt server url etag lastModified maxContentLength with
    | some r => .result r
    | none =>
      match fetchAttempt server url etag lastModified maxContentLength with
      | some r => .result r
      | none => .raised "retryable HTTP error"

/-! ## `web/policy.py` -/

/-- The observable behaviour of a loaded `RobotFileParser`. -/
structure RobotParserPy where
  disallowAll : Bool := false
  allowAll : Bool := false
  canFetch : String → Bool := fun _ => true

/-- `_get_robot_parser`: `urlparse(url)` is called outside the `try`
block, so its `ValueError` on an invalid bracketed netloc propagates to
the caller (`.error`).  Otherwise `.ok none` when the URL has no host or
the robots file could not be read.  `world` maps a domain to the parser
its robots file yields (or `none` when `parser.read()` raises). -/
def getRobotParser (world : String → Option RobotParserPy) (url : String) :
    Except String (Option RobotParserPy) :=
  match pyUrlparse url with
  | .error e => .error e
  | .ok parsed =>
    let domain := parsed.netloc
    if domain.isEmpty then .ok none
    else .ok (world domain)

/--
`check_robots_policy` from `web/policy.py`; `ingestIgnoreRobots` is the
global `settings.ingest_ignore_robots` flag.

```python
if settings.ingest_ignore_robots: return True, "ignored"
if robots_policy and robots_policy.lower() == "ignore": return True, "ignored"
parser = _get_robot_parser(url)
if parser is None: return False, "robots_unreachable"
if getattr(parser, "disallow_all", False): return False, "robots_disallowed"
if getattr(parser, "allow_all", False): return True, "allowed"
allowed = parser.can_fetch(USER_AGENT, url)
return (allowed, "allowed" if allowed else "robots_disallowed")
```

The `ValueError` that `_get_robot_parser` lets escape (invalid bracketed
netloc in the URL) propagates through `check_robots_policy`, which has no
handler either. -/
def check_robots_policy (ingestIgnoreRobots : Bool)
    (world : String → Option RobotParserPy) (url : String)
    (robotsPolicy : Option String) : Except String (Bool × String) :=
  if ingestIgnoreRobots then .ok (true, "ignored")
  else if optTruthy robotsPolicy && (pyLower (robotsPolicy.getD "") = "ignore") then
    .ok (true, "ignored")
  else
    match getRobotParser world url with
    | .error e => .error e
    | .ok none => .ok (false, "robots_unreachable")
    | .ok (some p) =>
      if p.disallowAll then .ok (false, "robots_disallowed")
      else if p.allowAll then .ok (true, "allowed")
      else if p.canFetch url then .ok (true, "allowed")
      else .ok (false, "robots_disallowed")

/-! ## `web/adapters/base.py`

The `SourceResult` dataclass declares exactly the eight fields below.
Python raises `TypeError` when a dataclass is constructed with a keyword
argument that is not a declared field, so every construction site in the
adapter models goes through `mkSourceResult`, which receives the literal
keyword names used at that site in the source and performs Python's
check. -/

structure SignalMetadata where
  title : Option String := none
  canonicalUrl : Option String := none
  domain : Option String := none
  topLinks : List String := []
deriving DecidableEq, Repr

/-- `ingest/signals.py` `RawSignal` (the in-memory observation an adapter
emits). -/
structure RawSignalPy where
  storeId : Nat
  sourceType : String
  url : Option String
  observedAt : Int
  payloadType : String
  payload : String
  metadata : SignalMetadata
deriving DecidableEq, Repr

structure SourceResultPy where
  status : String
  signals : List RawSignalPy := []
  message : Option String := none
  errorCode : Option String := none
  httpRequests : Nat := 0
  bytesRead : Nat := 0
  durationMs : Option Int := none
  sampleUrls : List String := []
deriving DecidableEq, Repr

/-- The fields `base.py` declares on the frozen dataclass `SourceResult`. -/
def sourceResultFieldNames : List String :=
  ["status", "signals", "message", "error_code",
   "http_requests", "bytes_read", "duration_ms", "sample_urls"]

inductive PyExn where
  | typeError (msg : String)
  | adapterError (msg : String)
  | valueError (msg : String)
deriving DecidableEq, Repr

/-- `SourceResult(**kwargs)`: succeeds only when every keyword used at the
call site names a declared dataclass field. -/
def mkSourceResult (kwargNames : List String) (r : SourceResultPy) :
    Except PyExn SourceResultPy :=
  if kwargNames.all (sourceResultFieldNames.contains ·) then .ok r
  else .error (.typeError "unexpected keyword argument")

/-- Python f-string interpolation of a `str | None` value. -/
def pyShowOpt : Option String → String
  | none => "None"
  | some s => s

/-- Substring test (`needle in haystack` on Python strings). -/
def containsSub : List Char → List Char → Bool
  | [], sub => sub.isEmpty
  | l@(_ :: rest), sub => sub.isPrefixOf l || containsSub rest sub

/-- Result of `parse_web_html` (`web/parse.py`), passed in as an oracle:
the adapters under verification treat the parser as a black box. -/
structure ParsedPage where
  title : Option String := none
  canonicalUrl : Option String := none
  topLinks : List String := []
  bodyText : String := ""
deriving DecidableEq, Repr

/-! ## `web/adapters/category.py` -/

structure CategoryConfig where
  url : String
  requireBrowser : Bool
deriving DecidableEq, Repr

/-- The external world a `CategoryPageAdapter.discover` call runs in.
`RateLimiter.wait` only sleeps and is invisible to the result; the
monotonic-clock readings that produce `duration_ms` are summarised by one
opaque value. -/
structure WebEnv where
  ingestIgnoreRobots : Bool := false
  robotsWorld : String → Option RobotParserPy := fun _ => none
  web : String → List (String × String) → ServerBehavior := fun _ _ => .raises "down"
  parseWebHtml : String → ParsedPage := fun _ => {}
  saleSummary : String → String → String := fun _ _ => ""
  nowTs : Int := 0
  qnow : ℚ := 0
  elapsedMs : Int := 0

/--
`CategoryPageAdapter.discover`, translated clause by clause; the second
component is the budget object after the call (Python mutates it in
place). -/
def categoryDiscover (storeId : Nat) (storeCategory : Option String)
    (cfg : CategoryConfig) (robotsPolicy : Option String)
    (budget : Option RequestBudget) (env : WebEnv) :
    Except PyExn SourceResultPy × Option RequestBudget :=
  if cfg.requireBrowser then
    (mkSourceResult ["status", "signals", "message", "error_code", "duration_ms"]
      { status := "failure", signals := [], message := some "Browser required",
        errorCode := some "requires_browser", durationMs := some env.elapsedMs },
     budget)
  else
    match check_robots_policy env.ingestIgnoreRobots env.robotsWorld cfg.url robotsPolicy with
    | .error e => (.error (.valueError e), budget)
    | .ok pol =>
    if !pol.1 then
      (mkSourceResult ["status", "signals", "message", "error_code", "duration_ms"]
        { status := "failure", signals := [], message := some pol.2,
          errorCode := some pol.2, durationMs := some env.elapsedMs },
       budget)
    else
      let bstep : Bool × Option RequestBudget :=
        match budget with
        | some b =>
          let sr := b.start_request env.qnow
          (!sr.1, some sr.2)
        | none => (false, none)
      if bstep.1 then
        (mkSourceResult ["status", "signals", "message", "error_code", "duration_ms"]
          { status := "failure", signals := [], message := some "Request budget exhausted",
            errorCode := some "budget_exhausted", durationMs := some env.elapsedMs },
         bstep.2)
      else
        match fetch_url (env.web cfg.url) cfg.url none none none with
        | .raised msg =>
          (mkSourceResult ["status", "signals", "message", "error_code",
              "http_requests", "duration_ms"]
            { status := "failure", signals := [], message := some msg,
              errorCode := some "fetch_error", httpRequests := 1,
              durationMs := some env.elapsedMs },
           bstep.2)
        | .result r =>
          let textTruthy := optTruthy r.text
          let bytesRead := if textTruthy then (r.text.getD "").length else 0
          let budget2 :=
            if textTruthy then bstep.2.map (·.add_bytes bytesRead) else bstep.2
          if optTruthy r.error || !textTruthy then
            (mkSourceResult ["status", "signals", "message", "error_code",
                "http_requests", "bytes_read", "duration_ms"]
              { status := "failure", signals := [],
                message := some ("Fetch failed: " ++ pyShowOpt r.error),
                errorCode := some "fetch_failed", httpRequests := 1,
                bytesRead := bytesRead, durationMs := some env.elapsedMs },
             budget2)
          else
            let parsed := env.parseWebHtml (r.text.getD "")
            let canonicalUrl := (parsed.canonicalUrl.filter (!·.isEmpty)).getD r.finalUrl
            let isSalePage := storeCategory = some "apparel" &&
              (containsSub (pyLower canonicalUrl).data "sale".data ||
               containsSub (pyLower canonicalUrl).data "clearance".data ||
               containsSub (pyLower canonicalUrl).data "outlet".data)
            let bodyText :=
              if isSalePage then env.saleSummary (r.text.getD "") canonicalUrl
              else parsed.bodyText
            match pyUrlparse canonicalUrl with
            | .error e => (.error (.valueError e), budget2)
            | .ok cp =>
            let metadata : SignalMetadata :=
              { title := parsed.title, canonicalUrl := some canonicalUrl,
                domain := some cp.netloc,
                topLinks := parsed.topLinks }
            let signals : List RawSignalPy :=
              [{ storeId := storeId, sourceType := "category", url := some canonicalUrl,
                 observedAt := env.nowTs, payloadType := "text", payload := bodyText,
                 metadata := metadata }]
            (mkSourceResult ["status", "signals", "message", "http_requests",
                "bytes_read", "duration_ms", "sample_urls"]
              { status := "success", signals := signals, message := some "category ok",
                httpRequests := 1, bytesRead := bytesRead,
                durationMs := some env.elapsedMs, sampleUrls := [canonicalUrl] },
             budget2)

/-! ## `web/adapters/rss.py` -/

structure RssConfig where
  url : String
  maxEntries : Nat
  fetchEntry : Bool
deriving DecidableEq, Repr

/-- One entry of `parse_rss_feed` (`web/parse_feed.py`), passed in as an
oracle. -/
structure FeedEntry where
  title : Option String := none
  link : Option String := none
  summary : Option String := none
  publishedAt : Option Int := none
deriving DecidableEq, Repr

/-- `a or b or ""` over `str | None` values. -/
def pyFirstTruthy (a b : Option String) : String :=
  if optTruthy a then a.getD ""
  else if optTruthy b then b.getD ""
  else ""

structure RssLoopState where
  signals : List RawSignalPy := []
  httpRequests : Nat := 1
  bytesRead : Nat := 0
  budget : Option RequestBudget := none
  budgetExhausted : Bool := false
deriving DecidableEq

/-- The `fetch_entry` part of one RSS loop iteration, after the budget
check: robots gate, entry fetch, byte accounting.  Returns the new state
plus `some (payload, top_links)` when the loop goes on to append a signal,
`none` when the iteration hits a `continue`.  The per-entry
`check_robots_policy` call sits outside any `try`, so an invalid
bracketed netloc in an entry link raises `ValueError` out of the whole
`discover` call (`.error`). -/
def rssFetchEntryPart (robotsPolicy : Option String) (env : WebEnv) (link : String)
    (payload0 : String) (topLinks0 : List String) (st : RssLoopState) :
    Except String (RssLoopState × Option (String × List String)) :=
  match check_robots_policy env.ingestIgnoreRobots env.robotsWorld link robotsPolicy with
  | .error e => .error e
  | .ok pol =>
  if !pol.1 then .ok (st, none)
  else
    match fetch_url (env.web link) link none none none with
    | .raised _ => .ok ({ st with httpRequests := st.httpRequests + 1 }, none)
    | .result r =>
      let st1 := { st with httpRequests := st.httpRequests + 1 }
      if optTruthy r.text then
        let len := (r.text.getD "").length
        let st2 := { st1 with budget := st1.budget.map (·.add_bytes len),
                              bytesRead := st1.bytesRead + len }
        let parsed := env.parseWebHtml (r.text.getD "")
        .ok (st2, some (parsed.bodyText,
          if parsed.topLinks.isEmpty then topLinks0 else parsed.topLinks))
      else .ok (st1, some (payload0, topLinks0))

/-- The `for entry in entries[:max_entries]` loop of `RssAdapter.discover`.
The second component is `some msg` when a per-entry robots check raised
`ValueError` (aborting the loop with the state — in particular the
in-place-mutated budget — as of the raise), `none` when the loop ran to
completion. -/
def rssLoop (fetchEntry : Bool) (robotsPolicy : Option String) (env : WebEnv)
    (storeId : Nat) : List FeedEntry → RssLoopState → RssLoopState × Option String
  | [], st => (st, none)
  | entry :: rest, st =>
    let observedAt := entry.publishedAt.getD env.nowTs
    let payload0 := pyFirstTruthy entry.summary entry.title
    let topLinks0 := if optTruthy entry.link then [entry.link.getD ""] else []
    let emit := fun (st' : RssLoopState) (payload : String) (topLinks : List String) =>
      { st' with signals := st'.signals ++
          [{ storeId := storeId, sourceType := "rss", url := entry.link,
             observedAt := observedAt, payloadType := "text", payload := payload,
             metadata := { title := entry.title, topLinks := topLinks } }] }
    if fetchEntry && optTruthy entry.link then
      let bs : Bool × Option RequestBudget :=
        match st.budget with
        | some b =>
          let sr := b.start_request env.qnow
          (!sr.1, some sr.2)
        | none => (false, none)
      if bs.1 then ({ st with budget := bs.2, budgetExhausted := true }, none)
      else
        match rssFetchEntryPart robotsPolicy env (entry.link.getD "") payload0
            topLinks0 { st with budget := bs.2 } with
        | .error e => ({ st with budget := bs.2 }, some e)
        | .ok fr =>
          match fr.2 with
          | none => rssLoop fetchEntry robotsPolicy env storeId rest fr.1
          | some pl => rssLoop fetchEntry robotsPolicy env storeId rest
              (emit fr.1 pl.1 pl.2)
    else
      rssLoop fetchEntry robotsPolicy env storeId rest (emit st payload0 topLinks0)

/--
`RssAdapter.discover`, with `parse_rss_feed` (`web/parse_feed.py`) passed
in as an oracle.  The result statuses and every `SourceResult(...)`
construction, including the keyword names used, mirror the source; the
`etag=` / `last_modified=` / `last_seen_item_at=` keywords that `rss.py`
passes are not fields of the `SourceResult` dataclass, so those sites
raise `TypeError`. -/
def rssDiscover (storeId : Nat) (cfg : RssConfig) (robotsPolicy : Option String)
    (budget : Option RequestBudget) (etag lastModified : Option String)
    (env : WebEnv) (parseRssFeed : String → List FeedEntry) :
    Except PyExn SourceResultPy × Option RequestBudget :=
  match check_robots_policy env.ingestIgnoreRobots env.robotsWorld cfg.url robotsPolicy with
  | .error e => (.error (.valueError e), budget)
  | .ok pol =>
  if !pol.1 then
    (mkSourceResult ["status", "signals", "message", "error_code", "duration_ms"]
      { status := "failure", signals := [], message := some pol.2,
        errorCode := some pol.2, durationMs := some env.elapsedMs },
     budget)
  else
    let bstep : Bool × Option RequestBudget :=
      match budget with
      | some b =>
        let sr := b.start_request env.qnow
        (!sr.1, some sr.2)
      | none => (false, none)
    if bstep.1 then
      (mkSourceResult ["status", "signals", "message", "error_code", "duration_ms"]
        { status := "failure", signals := [], message := some "Request budget exhausted",
          errorCode := some "budget_exhausted", durationMs := some env.elapsedMs },
       bstep.2)
    else
      match fetch_url (env.web cfg.url) cfg.url etag lastModified none with
      | .raised msg =>
        (mkSourceResult ["status", "signals", "message", "error_code",
            "http_requests", "duration_ms"]
          { status := "failure", signals := [], message := some msg,
            errorCode := some "fetch_failed", httpRequests := 1,
            durationMs := some env.elapsedMs },
         bstep.2)
      | .result r =>
        if r.statusCode = 304 then
          (mkSourceResult ["status", "signals", "message", "http_requests",
              "bytes_read", "duration_ms", "etag", "last_modified"]
            { status := "empty", signals := [], message := some "not modified",
              httpRequests := 1, bytesRead := 0, durationMs := some env.elapsedMs },
           bstep.2)
        else if optTruthy r.error || !optTruthy r.text then
          (mkSourceResult ["status", "signals", "message", "error_code",
              "http_requests", "duration_ms"]
            { status := "failure", signals := [],
              message := some ("Failed to fetch RSS: " ++ pyShowOpt r.error),
              errorCode := some "fetch_failed", httpRequests := 1,
              durationMs := some env.elapsedMs },
           bstep.2)
        else
          let feedText := r.text.getD ""
          let bytesRead := feedText.length
          let budget2 := bstep.2.map (·.add_bytes bytesRead)
          let entries := parseRssFeed feedText
          if entries.isEmpty then
            (mkSourceResult ["status", "signals", "message", "http_requests",
                "bytes_read", "duration_ms"]
              { status := "empty", signals := [], message := some "no rss entries",
                httpRequests := 1, bytesRead := bytesRead,
                durationMs := some env.elapsedMs },
             budget2)
          else
            let lp := rssLoop cfg.fetchEntry robotsPolicy env storeId
              (entries.take cfg.maxEntries)
              { signals := [], httpRequests := 1, bytesRead := bytesRead,
                budget := budget2, budgetExhausted := false }
            match lp.2 with
            | some e => (.error (.valueError e), lp.1.budget)
            | none =>
            let st := lp.1
            let status :=
              if st.signals.isEmpty && st.budgetExhausted then "failure"
              else if !st.signals.isEmpty then "success" else "empty"
            (mkSourceResult ["status", "signals", "message", "error_code",
                "http_requests", "bytes_read", "duration_ms", "sample_urls",
                "etag", "last_modified", "last_seen_item_at"]
              { status := status, signals := st.signals,
                message := some (if !st.signals.isEmpty then "rss ok"
                  else if st.budgetExhausted then "request budget exhausted"
                  else "no entries"),
                errorCode := if st.budgetExhausted then some "budget_exhausted" else none,
                httpRequests := st.httpRequests, bytesRead := st.bytesRead,
                durationMs := some env.elapsedMs,
                sampleUrls := (st.signals.take 3).filterMap (·.url) },
             st.budget)

/-! ## `web/tiered.py` — the per-store routing loop

`ingest_tiered_sources` treats each adapter as a black box: it builds it
(`build_adapter`, which may return `None`), calls `discover()`, and only
inspects `result.status` / `result.signals` (plus the persistence counts).
The loop is therefore modelled parametrically over a function giving each
config's outcome. -/

structure PromoState where
  endsAt : Option Int := none
  percentOff : Option Int := none
  amountOff : Option Int := none
  code : Option String := none
  discountText : Option String := none
deriving DecidableEq, Repr

structure PromoCandidate where
  endsAt : Option Int := none
  percentOff : Option Int := none
  amountOff : Option Int := none
  code : Option String := none
  discountText : Option String := none
deriving DecidableEq, Repr

/-- The duplicate-guarded insertion loop at the end of
`detect_and_record_changes`: a `PromoChange(promo, email, change_type)` row
is added unless one already exists (`hasPriorChange`) or was added earlier
in this loop (SQLAlchemy autoflush makes the pending row visible to the
`filter_by` query). -/
def recordChangeRows (hasPriorChange : String → Bool) (changes : List String) :
    List String :=
  changes.foldl
    (fun acc ct => if hasPriorChange ct || acc.contains ct then acc else acc ++ [ct]) []

/-- The end-date block (`if candidate.ends_at: ... end_extended`). -/
def mergeEndStep (existing : PromoState) (cand : PromoCandidate) :
    List String × PromoState :=
  match cand.endsAt with
  | some newEnds =>
    match existing.endsAt with
    | none => (["end_extended"], { existing with endsAt := some newEnds })
    | some e =>
      if newEnds > e then (["end_extended"], { existing with endsAt := some newEnds })
      else ([], existing)
  | none => ([], existing)

/-- `candidate.percent_off is not None and candidate.percent_off != existing.percent_off`. -/
def mergePercentStep (s : PromoState) (cand : PromoCandidate) :
    List String × PromoState :=
  match cand.percentOff with
  | some p =>
    if some p ≠ s.percentOff then
      (["discount_changed"], { s with percentOff := some p, discountText := cand.discountText })
    else ([], s)
  | none => ([], s)

/-- `candidate.amount_off is not None and candidate.amount_off != existing.amount_off`. -/
def mergeAmountStep (s : PromoState) (cand : PromoCandidate) :
    List String × PromoState :=
  match cand.amountOff with
  | some a =>
    if some a ≠ s.amountOff then
      (["discount_changed"], { s with amountOff := some a, discountText := cand.discountText })
    else ([], s)
  | none => ([], s)

/-- The `code_added` / `code_changed` block. -/
def mergeCodeStep (s : PromoState) (cand : PromoCandidate) :
    List String × PromoState :=
  if optTruthy cand.code && !optTruthy s.code then
    (["code_added"], { s with code := cand.code })
  else if optTruthy cand.code && optTruthy s.code &&
      pyUpper (cand.code.getD "") ≠ pyUpper (s.code.getD "") then
    (["code_changed"], { s with code := cand.code })
  else ([], s)

/-- `detect_and_record_changes`: returns (detected change types in order,
updated promo fields, newly inserted `PromoChange` rows). -/
def detect_and_record_changes (existing : PromoState) (cand : PromoCandidate)
    (hasPriorChange : String → Bool) :
    List String × PromoState × List String :=
  let step1 := mergeEndStep existing cand
  let step2 := mergePercentStep step1.2 cand
  let step3 := mergeAmountStep step2.2 cand
  let step4 := mergeCodeStep step3.2 cand
  let changes := step1.1 ++ step2.1 ++ step3.1 ++ step4.1
  (changes, step4.2, recordChangeRows hasPriorChange changes)

/-! ## `digest/select.py`

The database is modelled as explicit row lists; SQLAlchemy queries become
list filters (row order in a query result is unspecified in SQL, and no
claim depends on it).  Timestamps are seconds (`timedelta(days=n)` is
`n * 86400`, `timedelta(hours=n)` is `n * 3600`). -/

structure StoreRow where
  slug : String
  name : String
deriving DecidableEq, Repr

structure PromoRow where
  promoId : Nat
  store : StoreRow
  headline : String
  status : String
  lastSeenAt : Int
  lastNotifiedAt : Option Int := none
deriving DecidableEq, Repr

structure EmailRow where
  emailId : Nat
  gmailMessageId : Option String := none
  receivedAt : Int := 0
  topLinks : List String := []
deriving DecidableEq, Repr

structure ChangeRow where
  promoId : Nat
  emailId : Nat
  changeType : String
  changedAt : Int
deriving DecidableEq, Repr

structure DigestDB where
  promos : List PromoRow := []
  changes : List ChangeRow := []
  emails : List EmailRow := []
  emailLinks : List (Nat × Nat) := []
  runs : List (String × Option Int) := []
deriving Repr

structure DigestItem where
  promo : PromoRow
  badge : String
  storeName : String
  changes : List String
  sourceType : String
  sourceUrl : Option String
deriving DecidableEq, Repr

def WEB_MESSAGE_PREFIXES : List String :=
  ["sitemap", "rss", "category", "browser", "json", "web"]

/-- `_source_type_from_message_id`. -/
def sourceTypeFromMessageId : Option String → String
  | none => "unknown"
  | some mid =>
    if mid.isEmpty then "unknown"
    else if mid.data.contains ':' then
      let pre : String := ⟨mid.data.takeWhile (· ≠ ':')⟩
      if WEB_MESSAGE_PREFIXES.contains pre then pre else "gmail"
    else "gmail"

/-- `max(promo.email_links, key=received_at)` resolved to its email row
(`none` when the promo has no resolvable link, in which case the source
reports `"unknown"` / no URL). -/
def latestEmail (db : DigestDB) (promoId : Nat) : Option EmailRow :=
  let linked := db.emailLinks.filterMap fun l =>
    if l.1 = promoId then db.emails.find? (·.emailId = l.2) else none
  match linked with
  | [] => none
  | e :: rest => some (rest.foldl (fun a b => if b.receivedAt > a.receivedAt then b else a) e)

/-- `_latest_source_type`. -/
def latestSourceType (db : DigestDB) (promoId : Nat) : String :=
  match latestEmail db promoId with
  | none => "unknown"
  | some e => sourceTypeFromMessageId e.gmailMessageId

/-- `_source_url_from_email`. -/
def sourceUrlFromEmail : Option EmailRow → Option String
  | none => none
  | some e => e.topLinks.head?

def defaultLookbackHours (runType : String) : Int :=
  if runType = "daily_digest" then 24 else 24 * 7

/-- `get_last_digest_time`. -/
def get_last_digest_time (db : DigestDB) (runType : String) (now : Int) : Int :=
  let sents := db.runs.filterMap fun r => if r.1 = runType then r.2 else none
  match sents.max? with
  | some t => t
  | none => now - defaultLookbackHours runType * 3600

/-- The joined rows of the NEW / UPDATED queries:
`PromoChange ⋈ Promo ⋈ Store ⋈ EmailRaw` with the given filters. -/
def changeQuery (db : DigestDB) (since : Int) (allowlist : List String)
    (wantCreated : Bool) : List (ChangeRow × PromoRow × EmailRow) :=
  db.changes.filterMap fun ch =>
    match db.promos.find? (·.promoId = ch.promoId),
        db.emails.find? (·.emailId = ch.emailId) with
    | some promo, some email =>
      if (if wantCreated then ch.changeType = "created" else ch.changeType ≠ "created") &&
          ch.changedAt > since && promo.status = "active" &&
          (allowlist.isEmpty || allowlist.contains promo.store.slug) then
        some (ch, promo, email)
      else none
    | _, _ => none

/-- The `unchanged_query` of the ACTIVE phase. -/
def unchangedQuery (db : DigestDB) (cooldownCutoff : Int) (allowlist : List String) :
    List PromoRow :=
  db.promos.filter fun p =>
    p.status = "active" && p.lastSeenAt ≥ cooldownCutoff &&
    (p.lastNotifiedAt.isNone ||
      (match p.lastNotifiedAt with | some t => t < cooldownCutoff | none => false)) &&
    (allowlist.isEmpty || allowlist.contains p.store.slug)

structure SelState where
  results : List DigestItem := []
  seen : List Nat := []
  headlineSeen : List (String × String) := []
deriving Repr

/-- Loop body shared by the NEW and UPDATED phases (they differ in the
badge and in the `changes` list attached to the item). -/
def changePhaseStep (db : DigestDB) (since : Int) (badge : String)
    (st : SelState) (row : ChangeRow × PromoRow × EmailRow) : SelState :=
  let hk := (row.2.1.store.slug, normalize_headline row.2.1.headline)
  if st.headlineSeen.contains hk then st
  else if st.seen.contains row.1.promoId then st
  else
    let itemChanges :=
      if badge = "NEW" then ["created"]
      else ((db.changes.filter fun c => c.promoId = row.1.promoId && c.changedAt > since).map
        (·.changeType))
    { results := st.results ++
        [{ promo := row.2.1, badge := badge, storeName := row.2.1.store.name,
           changes := itemChanges,
           sourceType := sourceTypeFromMessageId row.2.2.gmailMessageId,
           sourceUrl := sourceUrlFromEmail (some row.2.2) }],
      seen := st.seen ++ [row.1.promoId],
      headlineSeen := st.headlineSeen ++ [hk] }

/-- The ACTIVE phase loop body. -/
def activePhaseStep (db : DigestDB) (st : SelState) (promo : PromoRow) : SelState :=
  if st.seen.contains promo.promoId then st
  else
    let hk := (promo.store.slug, normalize_headline promo.headline)
    if st.headlineSeen.contains hk then st
    else
      { results := st.results ++
          [{ promo := promo, badge := "ACTIVE", storeName := promo.store.name,
             changes := [],
             sourceType := latestSourceType db promo.promoId,
             sourceUrl := sourceUrlFromEmail (latestEmail db promo.promoId) }],
        seen := st.seen ++ [promo.promoId],
        headlineSeen := st.headlineSeen ++ [hk] }

/-- `select_digest_promos`. -/
def select_digest_promos (db : DigestDB) (allowlist : List String) (now : Int)
    (runType : String) (includeUnchanged : Bool) (cooldownDays : Int) :
    List DigestItem :=
  let since := get_last_digest_time db runType now
  let cooldownCutoff := now - cooldownDays * 86400
  let st1 := (changeQuery db since allowlist true).foldl
    (changePhaseStep db since "NEW") {}
  let st2 := (changeQuery db since allowlist false).foldl
    (changePhaseStep db since "UPDATED") st1
  let st3 :=
    if includeUnchanged then
      (unchangedQuery db cooldownCutoff allowlist).foldl (activePhaseStep db) st2
    else st2
  st3.results

/-! ## `outbound/notifications.py` and `jobs/daily.py`

The three notification channels are external services; each is summarised
by the structured result its `send` returns (`ok`, and for the email
channel a message id).  The pipeline phases that only contribute opaque
stats (seed, ingest, extract, merge) do not touch the run record and are
not modelled; the control flow around the digest generation, delivery and
run-record update is translated clause by clause for executions in which
no phase raises. -/

structure ChannelResult where
  name : String
  ok : Bool
  messageId : Option String := none
deriving DecidableEq, Repr

/-- `deliver_digest_notifications`: fan out, `delivered = any ok`, keep the
email channel's message id when truthy. -/
def deliver_digest_notifications (channels : List ChannelResult) :
    Bool × Option String :=
  channels.foldl
    (fun acc ch =>
      (acc.1 || ch.ok,
       if ch.name = "email" && optTruthy ch.messageId then ch.messageId else acc.2))
    (false, none)

structure RunRecord where
  runType : String
  digestDateEt : String
  status : Option String := none
  digestSentAt : Option Int := none
  digestProviderId : Option String := none
  finishedAt : Option Int := none
  errorStored : Option String := none
deriving DecidableEq, Repr

structure DailyEnv where
  lockAcquired : Bool := true
  existingRun : Option RunRecord := none
  todayEt : String := "2026-01-01"
  htmlGenerated : Bool := true
  selectedPromoIds : List Nat := []
  channels : List ChannelResult := []
  dryRun : Bool := false
  nowUtc : Int := 0
deriving Repr

structure PipelineResult where
  statsError : Option String := none
  statsSuccess : Bool := false
  statsDelivered : Option Bool := none
  run : Option RunRecord := none
  notifiedPromoIds : List Nat := []
deriving Repr

/-- Steps 7–9 of `run_daily_pipeline` (digest send-or-save and the run
record update), starting from the run row with `status="running"`. -/
def dailyFinish (env : DailyEnv) (run1 : RunRecord) : PipelineResult :=
  let afterSend : RunRecord × Option String × Option Bool × List Nat :=
    if env.htmlGenerated then
      if env.dryRun then (run1, none, none, [])
      else
        let dd := deliver_digest_notifications env.channels
        if dd.1 then
          ({ run1 with
              digestSentAt := some env.nowUtc,
              digestProviderId := some (dd.2.getD "notifications") },
           none, some true, env.selectedPromoIds)
        else (run1, some "delivery_failed", some false, [])
    else (run1, none, none, [])
  { statsError := afterSend.2.1,
    statsSuccess := true,
    statsDelivered := afterSend.2.2.1,
    run := some ({ afterSend.1 with
      status := some "success",
      finishedAt := some env.nowUtc }),
    notifiedPromoIds := afterSend.2.2.2 }

/-- `run_daily_pipeline` (dry-run and delivery control flow; executions in
which no phase raises). -/
def run_daily_pipeline (env : DailyEnv) : PipelineResult :=
  if !env.lockAcquired then { statsError := some "concurrent_run" }
  else
    match env.existingRun with
    | some r =>
      if r.digestSentAt.isSome then { statsError := some "already_sent" }
      else dailyFinish env { r with status := some "running" }
    | none =>
      dailyFinish env
        { runType := "daily_digest", digestDateEt := env.todayEt,
          status := some "running" }

/-! ## Concrete instances used by counterexamples and witnesses -/

/-- A server returning a 6-character body with status 200. -/
def exServerC9 : List (String × String) → ServerBehavior := fun _ =>
  .responds { finalUrl := "https://x.example/big", statusCode := 200, text := "abcdef" }

/-- The environment of the C1 counterexample: the lock is acquired, no run
row exists for today, a digest was generated, this is not a dry run, and
all three configured channels fail. -/
def exEnvC1 : DailyEnv :=
  { lockAcquired := true, existingRun := none, todayEt := "2026-02-03",
    htmlGenerated := true, selectedPromoIds := [7],
    channels := [{ name := "macos", ok := false }, { name := "telegram", ok := false },
      { name := "email", ok := false }],
    dryRun := false, nowUtc := 1000 }

/-- The condition of the `end_extended` branch: a parseable candidate end
date that is strictly later than the stored one, or a stored end date that
is null. -/
def endExtendedCond (existing : PromoState) (cand : PromoCandidate) : Prop :=
  ∃ t, cand.endsAt = some t ∧
    (existing.endsAt = none ∨ ∃ e, existing.endsAt = some e ∧ e < t)

instance (existing : PromoState) (cand : PromoCandidate) :
    Decidable (endExtendedCond existing cand) := by
  unfold endExtendedCond
  infer_instance

/-- A world in which the feed host's robots file allows everything and the
feed server answers 304 exactly when the request carries
`If-None-Match: abc` (and 200 with a body otherwise). -/
def exRssEnv : WebEnv :=
  { ingestIgnoreRobots := false
    robotsWorld := fun d =>
      if d = "feeds.example.com" then some { allowAll := true } else none
    web := fun _ hdrs =>
      if hdrs.contains ("If-None-Match", "abc") then
        .responds { finalUrl := "https://feeds.example.com/rss", statusCode := 304,
                    headerEtag := some "abc" }
      else
        .responds { finalUrl := "https://feeds.example.com/rss", statusCode := 200,
                    text := "<rss/>" } }

def exRssCfg : RssConfig :=
  { url := "https://feeds.example.com/rss", maxEntries := 20, fetchEntry := false }

/-- A store with one active promo seen recently and never notified. -/
def exPromoC8 : PromoRow :=
  { promoId := 1, store := { slug := "acme", name := "Acme" }, headline := "25% Off",
    status := "active", lastSeenAt := 900, lastNotifiedAt := none }

def exDbC8 : DigestDB :=
  { promos := [exPromoC8], changes := [], emails := [], emailLinks := [],
    runs := [("daily_digest", some 500)] }

def exItemC8 : DigestItem :=
  { promo := exPromoC8, badge := "ACTIVE", storeName := "Acme", changes := [],
    sourceType := "unknown", sourceUrl := none }

theorem can_request_iff (b : RequestBudget) (now : ℚ) :
    b.can_request now = true ↔
      ((∀ m, b.maxRequests = some m → b.requestsUsed < m) ∧
       (∀ d, b.maxDurationSeconds = some d → now - b.startedAt < d)) := by
  constructor
  · intro h
    constructor
    · intro m hm
      by_contra hge
      push_neg at hge
      simp [RequestBudget.can_request, hm, hge] at h
    · intro d hd
      by_contra hge
      push_neg at hge
      simp [RequestBudget.can_request, hd, hge] at h
  · rintro ⟨h1, h2⟩
    rcases hm : b.maxRequests with _ | m <;> rcases hd : b.maxDurationSeconds with _ | d <;>
      simp [RequestBudget.can_request, hm, hd]
    · exact h2 d hd
    · exact h1 m hm
    · exact ⟨h1 m hm, h2 d hd⟩

theorem start_request_maxRequests (b : RequestBudget) (t : ℚ) :
    (b.start_request t).2.maxRequests = b.maxRequests := by
  unfold RequestBudget.start_request
  split <;> rfl

theorem runStartRequests_bounded (m : Nat) :
    ∀ (times : List ℚ) (b : RequestBudget), b.maxRequests = some m →
      b.requestsUsed ≤ m → (b.runStartRequests times).requestsUsed ≤ m := by
  intro times
  induction times with
  | nil =>
    intro b _ hle
    simpa [RequestBudget.runStartRequests] using hle
  | cons t ts ih =>
    intro b hm hle
    have hstep : ((b.start_request t).2).maxRequests = some m :=
      (start_request_maxRequests b t).trans hm
    have hused : ((b.start_request t).2).requestsUsed ≤ m := by
      unfold RequestBudget.start_request
      split
      case isTrue hcan =>
        have := ((can_request_iff b t).mp hcan).1 m hm
        simpa using this
      case isFalse => simpa using hle
    have : RequestBudget.runStartRequests b (t :: ts) =
        RequestBudget.runStartRequests (b.start_request t).2 ts := by
      simp [RequestBudget.runStartRequests]
    rw [this]
    exact ih _ hstep hused

/-- C10: `RequestBudget.start_request` returns `True` and increments
`requests_used` by exactly one precisely when `requests_used` is below
`max_requests` (when set) and the elapsed monotonic time is below
`max_duration_seconds` (when set); therefore `requests_used` never exceeds
`max_requests` across any call sequence, and the byte counters
(`bytes_used`, `max_bytes`) never influence admission. -/
theorem budget_start_request_correct (b : RequestBudget) (now : ℚ) :
    (((b.start_request now).1 = true) ↔
      ((∀ m, b.maxRequests = some m → b.requestsUsed < m) ∧
       (∀ d, b.maxDurationSeconds = some d → now - b.startedAt < d))) ∧
    ((b.start_request now).1 = true →
      (b.start_request now).2 = { b with requestsUsed := b.requestsUsed + 1 }) ∧
    ((b.start_request now).1 = false → (b.start_request now).2 = b) ∧
    (∀ mb bu,
      (({ b with maxBytes := mb, bytesUsed := bu } : RequestBudget).start_request now).1 =
        (b.start_request now).1) ∧
    (∀ m, b.maxRequests = some m → b.requestsUsed ≤ m →
      ∀ times, (b.runStartRequests times).requestsUsed ≤ m) := by
  refine ⟨?_, ?_, ?_, ?_, ?_⟩
  · rw [← can_request_iff]
    unfold RequestBudget.start_request
    split <;> simp_all
  · unfold RequestBudget.start_request
    split <;> simp_all
  · unfold RequestBudget.start_request
    split <;> simp_all
  · intro mb bu
    have hcr : ({ b with maxBytes := mb, bytesUsed := bu } : RequestBudget).can_request now =
        b.can_request now := rfl
    unfold RequestBudget.start_request
    rw [hcr]
    split <;> rfl
  · intro m hm hle times
    exact runStartRequests_bounded m times b hm hle

theorem budget_start_request_witness :
    ((({ maxRequests := some 2 } : RequestBudget).start_request 0).1 = true) ∧
    ((({ maxRequests := some 2 } : RequestBudget).runStartRequests
      [0, 1, 2, 3, 4]).requestsUsed ≤ 2) := by
  have h := budget_start_request_correct { maxRequests := some 2 } 0
  refine ⟨?_, ?_⟩
  · exact h.1.mpr ⟨fun m hm => by simp at hm; subst hm; decide, fun d hd => by simp at hd⟩
  · exact h.2.2.2.2 2 (by rfl) (by decide) [0, 1, 2, 3, 4]

/-! ## C7 — robots fail-closed -/

/-- C7: when the URL parses (no `ValueError`) but the robots file for it
cannot be fetched (`_get_robot_parser` returns `None`) and neither the
per-store `robots_policy="ignore"` override nor the global ignore-robots
flag is set, `check_robots_policy` returns `(False, "robots_unreachable")`,
and `CategoryPageAdapter.discover` (for a config that does not require a
browser) returns a `failure` result with
`error_code="robots_unreachable"` and zero signals, leaving the request
budget untouched.  (On a URL whose netloc `urlparse` rejects, the
`ValueError` instead escapes `check_robots_policy` and `discover`, which
have no handler — the fail-closed tuple is only produced on URLs that
parse.) -/
theorem robots_fail_closed (env : WebEnv) (storeId : Nat)
    (storeCategory : Option String) (cfg : CategoryConfig)
    (robotsPolicy : Option String) (budget : Option RequestBudget)
    (hflag : env.ingestIgnoreRobots = false)
    (hpol : (optTruthy robotsPolicy &&
      (pyLower (robotsPolicy.getD "") = "ignore" : Bool)) = false)
    (hrobots : getRobotParser env.robotsWorld cfg.url = .ok none)
    (hbrowser : cfg.requireBrowser = false) :
    check_robots_policy env.ingestIgnoreRobots env.robotsWorld cfg.url robotsPolicy
        = .ok (false, "robots_unreachable") ∧
    categoryDiscover storeId storeCategory cfg robotsPolicy budget env =
      (.ok { status := "failure", signals := [], message := some "robots_unreachable",
             errorCode := some "robots_unreachable", durationMs := some env.elapsedMs },
       budget) := by
  have hcheck : check_robots_policy env.ingestIgnoreRobots env.robotsWorld cfg.url
      robotsPolicy = .ok (false, "robots_unreachable") := by
    rw [hflag]
    unfold check_robots_policy
    rw [if_neg (by simp)]
    rw [if_neg (by simp [hpol])]
    rw [hrobots]
  refine ⟨hcheck, ?_⟩
  unfold categoryDiscover
  rw [if_neg (by simp [hbrowser])]
  rw [hcheck]
  rfl

theorem robots_fail_closed_witness :
    check_robots_policy false (fun _ => none) "https://shop.example.com/sale" none
        = .ok (false, "robots_unreachable") ∧
    categoryDiscover 1 (some "apparel")
        { url := "https://shop.example.com/sale", requireBrowser := false } none none
        { robotsWorld := fun _ => none, ingestIgnoreRobots := false } =
      (.ok { status := "failure", signals := [], message := some "robots_unreachable",
             errorCode := some "robots_unreachable", durationMs := some 0 },
       none) := by
  exact robots_fail_closed
    { robotsWorld := fun _ => none, ingestIgnoreRobots := false } 1 (some "apparel")
    { url := "https://shop.example.com/sale", requireBrowser := false } none none
    rfl (by decide) (by rfl) rfl

/-! ## C9 — body truncation in `fetch_url` -/

/-- C9 counterexample: with `max_content_length = 3` and a 6-character
body, `fetch_url` does **not** return the body truncated at 3 characters —
it returns the first 3 characters followed by the `"\n\n[TRUNCATED]"`
marker (16 characters in total), with `truncated=True`. -/
theorem fetch_truncation_counterexample :
    fetch_url exServerC9 "https://x.example/big" none none (some 3) =
      .result { finalUrl := "https://x.example/big", statusCode := 200,
                text := some "abc\n\n[TRUNCATED]", etag := none, lastModified := none,
                error := none, elapsedMs := some 0, truncated := true } ∧
    some "abc\n\n[TRUNCATED]" ≠ some (String.take "abcdef" 3) := by
  constructor
  · rfl
  · decide

/-- C9 (amended): for a successful non-304 response, `fetch_url` returns
the first `max_bytes` characters of the body **followed by the marker**
`"\n\n[TRUNCATED]"` with `truncated=true` when the body exceeds the
(nonzero) limit, and the full body with `truncated=false` otherwise; the
default limit `MAX_CONTENT_LENGTH` is 5 MiB. -/
theorem fetch_truncation_amended (server : List (String × String) → ServerBehavior)
    (url : String) (etag lastModified : Option String) (limit : Nat)
    (resp : HttpResponse)
    (hresp : server (fetchHeaders etag lastModified) = .responds resp)
    (h304 : resp.statusCode ≠ 304) (hok : resp.statusCode < 400) (hz : limit ≠ 0) :
    fetch_url server url etag lastModified (some limit) =
      .result {
        finalUrl := resp.finalUrl, statusCode := resp.statusCode,
        text := some (if resp.text.length > limit
          then resp.text.take limit ++ "\n\n[TRUNCATED]" else resp.text),
        etag := resp.headerEtag, lastModified := resp.headerLastModified,
        error := none, elapsedMs := some resp.elapsedMs,
        truncated := decide (resp.text.length > limit) } ∧
    MAX_CONTENT_LENGTH = 5 * 1024 * 1024 := by
  refine ⟨?_, rfl⟩
  simp only [fetch_url, fetchAttempt, hresp]
  simp only [if_neg h304, if_neg (by omega : ¬resp.statusCode ≥ 400)]
  by_cases hlen : resp.text.length > limit <;>
    simp [hlen, hz, Option.getD]

theorem fetch_truncation_amended_witness :
    fetch_url exServerC9 "https://x.example/big" none none (some 8) =
      .result { finalUrl := "https://x.example/big", statusCode := 200,
                text := some "abcdef", etag := none, lastModified := none,
                error := none, elapsedMs := some 0, truncated := false } := by
  have h := fetch_truncation_amended exServerC9 "https://x.example/big" none none 8
    { finalUrl := "https://x.example/big", statusCode := 200, text := "abcdef" }
    rfl (by decide) (by decide) (by decide)
  simpa using h.1

/-! ## C1 — run status after total delivery failure -/

theorem deliver_all_failed (chs : List ChannelResult) :
    ∀ acc : Bool × Option String, acc.1 = false →
      chs.all (fun ch => !ch.ok) = true →
      (chs.foldl
        (fun acc ch =>
          (acc.1 || ch.ok,
           if ch.name = "email" && optTruthy ch.messageId then ch.messageId else acc.2))
        acc).1 = false := by
  induction chs with
  | nil => intro acc h _; simpa using h
  | cons ch rest ih =>
    intro acc hacc hall
    simp only [List.all_cons, Bool.and_eq_true, Bool.not_eq_true'] at hall
    simp only [List.foldl_cons]
    exact ih _ (by simp [hacc, hall.1]) (by simp [hall.2])

/-- C1 counterexample: when the digest is generated and every notification
channel fails, `run_daily_pipeline` records `delivery_failed` only in the
stats map and leaves `digest_sent_at` unset, but sets the Run row's status
to `"success"`, not `"failed"`. -/
theorem daily_delivery_failure_counterexample :
    (run_daily_pipeline exEnvC1).statsError = some "delivery_failed" ∧
    ((run_daily_pipeline exEnvC1).run.map (·.status)) = some (some "success") ∧
    ((run_daily_pipeline exEnvC1).run.map (·.status)) ≠ some (some "failed") ∧
    ((run_daily_pipeline exEnvC1).run.map (·.digestSentAt)) = some none ∧
    (run_daily_pipeline exEnvC1).notifiedPromoIds = [] := by
  refine ⟨rfl, rfl, ?_, rfl, rfl⟩
  decide

/-- C1 (amended): when the digest is generated, the run is not a dry run
and every configured notification channel fails, `run_daily_pipeline`
records `error="delivery_failed"` in the stats map, leaves the Run's
`digest_sent_at` unset and marks no promo notified — but the Run's status
is set to `"success"` (the delivery failure is not reflected in the run
status or its stored error). -/
theorem daily_delivery_failure_amended (env : DailyEnv)
    (hlock : env.lockAcquired = true)
    (hexisting : ∀ r, env.existingRun = some r → r.digestSentAt = none)
    (hhtml : env.htmlGenerated = true) (hdry : env.dryRun = false)
    (hfail : env.channels.all (fun ch => !ch.ok) = true) :
    (run_daily_pipeline env).statsError = some "delivery_failed" ∧
    (∃ r, (run_daily_pipeline env).run = some r ∧ r.status = some "success" ∧
      r.digestSentAt = none) ∧
    (run_daily_pipeline env).notifiedPromoIds = [] := by
  have hnd : (deliver_digest_notifications env.channels).1 = false :=
    deliver_all_failed env.channels (false, none) rfl hfail
  have hfinish : ∀ run1 : RunRecord,
      dailyFinish env run1 =
        { statsError := some "delivery_failed", statsSuccess := true,
          statsDelivered := some false,
          run := some { run1 with status := some "success", finishedAt := some env.nowUtc },
          notifiedPromoIds := [] } := by
    intro run1
    unfold dailyFinish
    rw [hhtml, hdry]
    simp only [Bool.false_eq_true, if_false, if_true]
    simp [hnd]
  unfold run_daily_pipeline
  rw [hlock]
  simp only [Bool.not_true, Bool.false_eq_true, if_false]
  cases hex : env.existingRun with
  | none => simp [hfinish]
  | some r =>
    have hr := hexisting r hex
    simp [hr, hfinish]

theorem daily_delivery_failure_amended_witness :
    (run_daily_pipeline exEnvC1).statsError = some "delivery_failed" ∧
    (∃ r, (run_daily_pipeline exEnvC1).run = some r ∧ r.status = some "success" ∧
      r.digestSentAt = none) ∧
    (run_daily_pipeline exEnvC1).notifiedPromoIds = [] :=
  daily_delivery_failure_amended exEnvC1 rfl (fun _ h => Option.noConfusion h)
    rfl rfl (by decide)

/-! ## C5 — `end_extended` change detection -/

theorem mergeEndStep_spec (existing : PromoState) (cand : PromoCandidate) :
    (endExtendedCond existing cand →
      mergeEndStep existing cand =
        (["end_extended"], { existing with endsAt := cand.endsAt })) ∧
    (¬endExtendedCond existing cand →
      mergeEndStep existing cand = ([], existing)) := by
  rcases hce : cand.endsAt with _ | t
  · refine ⟨fun hcond => ?_, fun _ => ?_⟩
    · rcases hcond with ⟨t, ht, _⟩
      rw [hce] at ht
      exact Option.noConfusion ht
    · unfold mergeEndStep
      rw [hce]
  · rcases hee : existing.endsAt with _ | e
    · refine ⟨fun _ => ?_, fun hn => ?_⟩
      · unfold mergeEndStep
        rw [hce, hee]
      · exact absurd ⟨t, hce, Or.inl hee⟩ hn
    · by_cases hlt : t > e
      · refine ⟨fun _ => ?_, fun hn => ?_⟩
        · unfold mergeEndStep
          simp [hce, hee, hlt]
        · exact absurd ⟨t, hce, Or.inr ⟨e, hee, hlt⟩⟩ hn
      · refine ⟨fun hcond => ?_, fun _ => ?_⟩
        · exfalso
          rcases hcond with ⟨t2, ht2, hor⟩
          rw [hce] at ht2
          injection ht2 with ht2e
          subst ht2e
          rcases hor with hnone | ⟨e2, he2, hlt2⟩
          · rw [hee] at hnone
            exact Option.noConfusion hnone
          · rw [hee] at he2
            injection he2 with he2e
            subst he2e
            omega
        · unfold mergeEndStep
          simp [hce, hee, hlt]

theorem mergePercentStep_endsAt (s : PromoState) (cand : PromoCandidate) :
    (mergePercentStep s cand).2.endsAt = s.endsAt ∧
    "end_extended" ∉ (mergePercentStep s cand).1 := by
  unfold mergePercentStep
  rcases cand.percentOff with _ | p <;> simp
  split <;> simp

theorem mergeAmountStep_endsAt (s : PromoState) (cand : PromoCandidate) :
    (mergeAmountStep s cand).2.endsAt = s.endsAt ∧
    "end_extended" ∉ (mergeAmountStep s cand).1 := by
  unfold mergeAmountStep
  rcases cand.amountOff with _ | a <;> simp
  split <;> simp

theorem mergeCodeStep_endsAt (s : PromoState) (cand : PromoCandidate) :
    (mergeCodeStep s cand).2.endsAt = s.endsAt ∧
    "end_extended" ∉ (mergeCodeStep s cand).1 := by
  unfold mergeCodeStep
  split
  · simp
  · split <;> simp

theorem mem_recordChangeRows (prior : String → Bool) (x : String) :
    ∀ (l : List String) (acc : List String),
      (x ∈ l.foldl
        (fun acc ct => if prior ct || acc.contains ct then acc else acc ++ [ct]) acc) ↔
      (x ∈ acc ∨ (x ∈ l ∧ prior x = false)) := by
  intro l
  induction l with
  | nil => intro acc; simp
  | cons c rest ih =>
    intro acc
    simp only [List.foldl_cons]
    by_cases hpc : prior c = true
    · rw [if_pos (by simp [hpc]), ih]
      constructor
      · rintro (h | h)
        · exact Or.inl h
        · exact Or.inr ⟨List.mem_cons_of_mem _ h.1, h.2⟩
      · rintro (h | ⟨hmem, hpx⟩)
        · exact Or.inl h
        · rcases List.mem_cons.mp hmem with rfl | hmem2
          · rw [hpx] at hpc
            exact absurd hpc (by simp)
          · exact Or.inr ⟨hmem2, hpx⟩
    · by_cases hac : acc.contains c = true
      · rw [if_pos (by rw [hac, Bool.or_true]), ih]
        have hcm : c ∈ acc := by simpa using hac
        constructor
        · rintro (h | h)
          · exact Or.inl h
          · exact Or.inr ⟨List.mem_cons_of_mem _ h.1, h.2⟩
        · rintro (h | ⟨hmem, hpx⟩)
          · exact Or.inl h
          · rcases List.mem_cons.mp hmem with rfl | hmem2
            · exact Or.inl hcm
            · exact Or.inr ⟨hmem2, hpx⟩
      · have hneg : ¬((prior c || acc.contains c) = true) := by
          simp only [Bool.or_eq_true]
          rintro (h | h)
          exacts [hpc h, hac h]
        rw [if_neg hneg, ih]
        constructor
        · rintro (h | ⟨hmem, hpx⟩)
          · rcases List.mem_append.mp h with h2 | h2
            · exact Or.inl h2
            · have hxc : x = c := by simpa using h2
              subst hxc
              exact Or.inr ⟨List.mem_cons_self _ _, by simpa using hpc⟩
          · exact Or.inr ⟨List.mem_cons_of_mem _ hmem, hpx⟩
        · rintro (h | ⟨hmem, hpx⟩)
          · exact Or.inl (List.mem_append.mpr (Or.inl h))
          · rcases List.mem_cons.mp hmem with rfl | hmem2
            · exact Or.inl (List.mem_append.mpr (Or.inr (by simp)))
            · exact Or.inr ⟨hmem2, hpx⟩

/-- C5: `detect_and_record_changes` detects `end_extended` and updates the
stored `ends_at` exactly when the candidate's parsed `ends_at` is strictly
later than the existing one or the existing one is null; a candidate
carrying an earlier (or equal, or absent) end date leaves the stored
`ends_at` unchanged, so `ends_at` never decreases across merges; and a
`PromoChange(end_extended)` row is inserted exactly when the change is
detected and no identical `(promo, message, change_type)` row exists. -/
theorem merge_end_extended_correct (existing : PromoState) (cand : PromoCandidate)
    (prior : String → Bool) :
    (("end_extended" ∈ (detect_and_record_changes existing cand prior).1) ↔
      endExtendedCond existing cand) ∧
    (endExtendedCond existing cand →
      (detect_and_record_changes existing cand prior).2.1.endsAt = cand.endsAt) ∧
    (¬endExtendedCond existing cand →
      (detect_and_record_changes existing cand prior).2.1.endsAt = existing.endsAt) ∧
    (∀ e, existing.endsAt = some e →
      ∃ e2, (detect_and_record_changes existing cand prior).2.1.endsAt = some e2 ∧
        e ≤ e2) ∧
    (("end_extended" ∈ (detect_and_record_changes existing cand prior).2.2) ↔
      (endExtendedCond existing cand ∧ prior "end_extended" = false)) := by
  have hp := mergePercentStep_endsAt (mergeEndStep existing cand).2 cand
  have ha := mergeAmountStep_endsAt (mergePercentStep (mergeEndStep existing cand).2 cand).2 cand
  have hc := mergeCodeStep_endsAt
    (mergeAmountStep (mergePercentStep (mergeEndStep existing cand).2 cand).2 cand).2 cand
  have hend := mergeEndStep_spec existing cand
  have hchanges : (detect_and_record_changes existing cand prior).1 =
      (mergeEndStep existing cand).1 ++
        (mergePercentStep (mergeEndStep existing cand).2 cand).1 ++
        (mergeAmountStep (mergePercentStep (mergeEndStep existing cand).2 cand).2 cand).1 ++
        (mergeCodeStep (mergeAmountStep
          (mergePercentStep (mergeEndStep existing cand).2 cand).2 cand).2 cand).1 := rfl
  have hmem1 : ("end_extended" ∈ (detect_and_record_changes existing cand prior).1) ↔
      endExtendedCond existing cand := by
    rw [hchanges]
    simp only [List.mem_append]
    by_cases h : endExtendedCond existing cand
    · have e1 : (mergeEndStep existing cand).1 = ["end_extended"] := by
        rw [hend.1 h]
      rw [e1]
      simp [h]
    · have e1 : (mergeEndStep existing cand).1 = [] := by
        rw [hend.2 h]
      rw [e1]
      simp only [List.not_mem_nil, false_or]
      constructor
      · rintro ((h2 | h2) | h2)
        · exact absurd h2 hp.2
        · exact absurd h2 ha.2
        · exact absurd h2 hc.2
      · intro h2
        exact absurd h2 h
  have hstate : (detect_and_record_changes existing cand prior).2.1.endsAt =
      (mergeEndStep existing cand).2.endsAt := by
    show (mergeCodeStep (mergeAmountStep
      (mergePercentStep (mergeEndStep existing cand).2 cand).2 cand).2 cand).2.endsAt = _
    rw [hc.1, ha.1, hp.1]
  refine ⟨hmem1, ?_, ?_, ?_, ?_⟩
  · intro h
    rw [hstate, hend.1 h]
  · intro h
    rw [hstate, hend.2 h]
  · intro e he
    rw [hstate]
    by_cases h : endExtendedCond existing cand
    · rw [hend.1 h]
      rcases h with ⟨t, hct, hor⟩
      refine ⟨t, by simp [hct], ?_⟩
      rcases hor with hnone | ⟨e2, he2, hlt⟩
      · rw [he] at hnone
        exact absurd hnone (by simp)
      · rw [he] at he2
        injection he2 with he2e
        subst he2e
        omega
    · rw [hend.2 h, he]
      exact ⟨e, rfl, le_refl e⟩
  · have : (detect_and_record_changes existing cand prior).2.2 =
        recordChangeRows prior (detect_and_record_changes existing cand prior).1 := by
      unfold detect_and_record_changes
      rfl
    rw [this]
    unfold recordChangeRows
    rw [mem_recordChangeRows]
    simp [hmem1]

theorem merge_end_extended_witness :
    endExtendedCond { endsAt := some 100 } { endsAt := some 200 } ∧
    (detect_and_record_changes { endsAt := some 100 } { endsAt := some 200 }
      (fun _ => false)).2.1.endsAt = some 200 ∧
    ("end_extended" ∈ (detect_and_record_changes { endsAt := some 100 }
      { endsAt := some 200 } (fun _ => false)).2.2) ∧
    (detect_and_record_changes { endsAt := some 100 } { endsAt := some 50 }
      (fun _ => false)).2.1.endsAt = some 100 := by
  have h1 := merge_end_extended_correct { endsAt := some 100 } { endsAt := some 200 }
    (fun _ => false)
  have h2 := merge_end_extended_correct { endsAt := some 100 } { endsAt := some 50 }
    (fun _ => false)
  have hc1 : endExtendedCond { endsAt := some 100 } { endsAt := some 200 } := by
    exact ⟨200, rfl, Or.inr ⟨100, rfl, by omega⟩⟩
  have hc2 : ¬endExtendedCond { endsAt := some 100 } { endsAt := some 50 } := by
    rintro ⟨t, ht, hor⟩
    injection ht with hte
    subst hte
    rcases hor with h | ⟨e, he, hlt⟩
    · exact Option.noConfusion h
    · injection he with hee
      subst hee
      omega
  exact ⟨hc1, h1.2.1 hc1, (h1.2.2.2.2).mpr ⟨hc1, rfl⟩, h2.2.2.1 hc2⟩

/-! ## C2 — conditional GET on a stored etag -/

/-- C2 (code bug): with a stored `etag="abc"` the Fetcher call does send
`If-None-Match: abc`, and the server answers 304 — but
`RssAdapter.discover` then raises `TypeError` instead of returning an
`empty` `SourceResult`, because the `SourceResult` dataclass declared in
`web/adapters/base.py` has no `etag` / `last_modified` /
`last_seen_item_at` fields while `rss.py` passes them as keyword
arguments (`tiered.py` reads `result.etag` back, so the fields are
clearly intended).  No signal and no Message row is produced: the router's
`except Exception` arm records an `adapter_exception` failure. -/
theorem rss_conditional_get_raises_typeerror :
    fetchHeaders (some "abc") none =
      [("User-Agent", USER_AGENT), ("If-None-Match", "abc")] ∧
    sourceResultFieldNames.contains "etag" = false ∧
    sourceResultFieldNames.contains "last_modified" = false ∧
    rssDiscover 1 exRssCfg none none (some "abc") none exRssEnv (fun _ => []) =
      (.error (.typeError "unexpected keyword argument"), none) :=
  ⟨rfl, rfl, rfl, rfl⟩

/-! ## C3 — tier-ordered routing and the short-circuit -/

theorem changePhaseStep_mem (db : DigestDB) (since : Int) (badge : String)
    (st : SelState) (row : ChangeRow × PromoRow × EmailRow) (item : DigestItem)
    (h : item ∈ (changePhaseStep db since badge st row).results) :
    item ∈ st.results ∨ item.badge = badge := by
  simp only [changePhaseStep] at h
  by_cases h1 : st.headlineSeen.contains
      (row.2.1.store.slug, normalize_headline row.2.1.headline) = true
  · rw [if_pos h1] at h
    exact Or.inl h
  · rw [if_neg h1] at h
    by_cases h2 : st.seen.contains row.1.promoId = true
    · rw [if_pos h2] at h
      exact Or.inl h
    · rw [if_neg h2] at h
      rcases List.mem_append.mp h with h3 | h3
      · exact Or.inl h3
      · right
        have he : item = _ := List.mem_singleton.mp h3
        rw [he]

theorem changePhase_fold_mem (db : DigestDB) (since : Int) (badge : String) :
    ∀ (rows : List (ChangeRow × PromoRow × EmailRow)) (st : SelState) (item : DigestItem),
      item ∈ (rows.foldl (changePhaseStep db since badge) st).results →
      item ∈ st.results ∨ item.badge = badge := by
  intro rows
  induction rows with
  | nil => intro st item h; exact Or.inl h
  | cons r rest ih =>
    intro st item h
    rcases ih (changePhaseStep db since badge st r) item h with h2 | h2
    · exact changePhaseStep_mem db since badge st r item h2
    · exact Or.inr h2

theorem activePhaseStep_mem (db : DigestDB) (st : SelState) (p : PromoRow)
    (item : DigestItem) (h : item ∈ (activePhaseStep db st p).results) :
    item ∈ st.results ∨ (item.promo = p ∧ item.badge = "ACTIVE") := by
  simp only [activePhaseStep] at h
  by_cases h1 : st.seen.contains p.promoId = true
  · rw [if_pos h1] at h
    exact Or.inl h
  · rw [if_neg h1] at h
    by_cases h2 : st.headlineSeen.contains
        (p.store.slug, normalize_headline p.headline) = true
    · rw [if_pos h2] at h
      exact Or.inl h
    · rw [if_neg h2] at h
      rcases List.mem_append.mp h with h3 | h3
      · exact Or.inl h3
      · right
        have he : item = _ := List.mem_singleton.mp h3
        rw [he]
        exact ⟨rfl, rfl⟩

theorem activePhase_fold_mem (db : DigestDB) :
    ∀ (l : List PromoRow) (st : SelState) (item : DigestItem),
      item ∈ (l.foldl (activePhaseStep db) st).results →
      item ∈ st.results ∨ ∃ p ∈ l, item.promo = p ∧ item.badge = "ACTIVE" := by
  intro l
  induction l with
  | nil => intro st item h; exact Or.inl h
  | cons p rest ih =>
    intro st item h
    rcases ih (activePhaseStep db st p) item h with h2 | ⟨q, hq, he⟩
    · rcases activePhaseStep_mem db st p item h2 with h3 | h3
      · exact Or.inl h3
      · exact Or.inr ⟨p, List.mem_cons_self _ _, h3⟩
    · exact Or.inr ⟨q, List.mem_cons_of_mem _ hq, he⟩

/-- C8: every item the selector emits with badge `ACTIVE` (with
`include_unchanged=True`) satisfies the cooldown filter: its promo is
active, was seen within the last `cooldown_days`, and either was never
notified or was last notified strictly before `now − cooldown_days`; in
particular a promo whose `last_notified_at` lies within the cooldown
window is never emitted as ACTIVE. -/
theorem digest_active_cooldown (db : DigestDB) (allowlist : List String)
    (now : Int) (runType : String) (cooldownDays : Int) (item : DigestItem)
    (hmem : item ∈ select_digest_promos db allowlist now runType true cooldownDays)
    (hbadge : item.badge = "ACTIVE") :
    item.promo.status = "active" ∧
    item.promo.lastSeenAt ≥ now - cooldownDays * 86400 ∧
    (item.promo.lastNotifiedAt = none ∨
      ∃ t, item.promo.lastNotifiedAt = some t ∧ t < now - cooldownDays * 86400) ∧
    (∀ t, item.promo.lastNotifiedAt = some t → t < now - cooldownDays * 86400) := by
  have hmem2 : item ∈ ((unchangedQuery db (now - cooldownDays * 86400) allowlist).foldl
      (activePhaseStep db)
      ((changeQuery db (get_last_digest_time db runType now) allowlist false).foldl
        (changePhaseStep db (get_last_digest_time db runType now) "UPDATED")
        ((changeQuery db (get_last_digest_time db runType now) allowlist true).foldl
          (changePhaseStep db (get_last_digest_time db runType now) "NEW") {}))).results := by
    simpa [select_digest_promos] using hmem
  rcases activePhase_fold_mem db _ _ item hmem2 with h2 | ⟨p, hp, hpromo, _⟩
  · rcases changePhase_fold_mem db _ "UPDATED" _ _ item h2 with h3 | h3
    · rcases changePhase_fold_mem db _ "NEW" _ _ item h3 with h4 | h4
      · simp at h4
      · rw [hbadge] at h4
        exact absurd h4 (by decide)
    · rw [hbadge] at h3
      exact absurd h3 (by decide)
  · have hfilt := (List.mem_filter.mp hp).2
    simp only [Bool.and_eq_true, decide_eq_true_eq, Bool.or_eq_true,
      Option.isNone_iff_eq_none] at hfilt
    rw [hpromo]
    obtain ⟨⟨⟨hstatus, hseen⟩, hnotif⟩, _⟩ := hfilt
    refine ⟨hstatus, hseen, ?_, ?_⟩
    · rcases hnotif with hnone | hlt
      · exact Or.inl hnone
      · rcases hn : p.lastNotifiedAt with _ | t
        · exact Or.inl rfl
        · rw [hn] at hlt
          simp only [decide_eq_true_eq] at hlt
          exact Or.inr ⟨t, rfl, hlt⟩
    · intro t ht
      rcases hnotif with hnone | hlt
      · rw [ht] at hnone
        exact Option.noConfusion hnone
      · rw [ht] at hlt
        simpa using hlt

/-! ## Character and string lemmas shared by C4 and C6 -/

theorem char_toUpper_idem (c : Char) : c.toUpper.toUpper = c.toUpper := by
  rw [char_toUpper_eq c]
  split
  case isTrue h =>
    have ht : (Char.ofNat (c.toNat - 32)).toNat = c.toNat - 32 :=
      char_toNat_ofNat_of_lt (by omega)
    rw [char_toUpper_eq, if_neg]
    rw [ht]
    omega
  case isFalse h =>
    rw [char_toUpper_eq, if_neg h]

theorem isPySpace_of_gt (c : Char) (h : 32 < c.toNat) : isPySpace c = false := by
  unfold isPySpace
  simp only [Bool.or_eq_false_iff, decide_eq_false_iff_not]
  refine ⟨⟨⟨⟨⟨?_, ?_⟩, ?_⟩, ?_⟩, ?_⟩, ?_⟩ <;> rintro rfl <;> exact absurd h (by decide)

theorem isPySpace_toLower (c : Char) : isPySpace c.toLower = isPySpace c := by
  rw [char_toLower_eq]
  split
  case isTrue h =>
    have ht : (Char.ofNat (c.toNat + 32)).toNat = c.toNat + 32 :=
      char_toNat_ofNat_of_lt (by omega)
    rw [isPySpace_of_gt _ (by rw [ht]; omega), isPySpace_of_gt c (by omega)]
  case isFalse h => rfl

theorem digest_active_cooldown_witness :
    exItemC8.promo.status = "active" ∧
    exItemC8.promo.lastSeenAt ≥ 1000 - 7 * 86400 ∧
    (exItemC8.promo.lastNotifiedAt = none ∨
      ∃ t, exItemC8.promo.lastNotifiedAt = some t ∧ t < 1000 - 7 * 86400) ∧
    (∀ t, exItemC8.promo.lastNotifiedAt = some t → t < 1000 - 7 * 86400) :=
  digest_active_cooldown exDbC8 [] 1000 "daily_digest" 7 exItemC8 (by decide) rfl

end DealsBot
